import Mathlib

/-!
# Capability-manifest compatibility validator: a shallow embedding

This file embeds the compatibility-validation engine of the
capability-manifest library (`src/validator.ts` and `src/index.ts`) in
Lean 4 and proves properties of it.

Modelling conventions for the JavaScript semantics used by the source:
* optional fields become `Option`;
* JavaScript truthiness of an optional string field (`if (x)`) is
  `x` being present and non-empty;
* JavaScript truthiness of a boolean capability flag (`!flag`) is
  `Option.getD false`;
* numbers appearing in version lists are exact rationals (`Rat`); the
  result of `parseFloat` is a rational or NaN (`JsNum`);
* `parseFloat` itself is modelled on plain unsigned decimal literals
  (`digits` or `digits.digits`); every other input is treated as NaN.
  The claims below only constrain behaviour relative to this parse
  function, so the exotic corners of `parseFloat` (signs, exponents,
  trailing junk) are immaterial to them.
-/

/-- Result of JavaScript `parseFloat`: either an exact number or NaN. -/
inductive JsNum where
  | nan : JsNum
  | num (q : Rat) : JsNum
deriving DecidableEq

/-- Accumulate a decimal digit string into a natural number; `none` on a
non-digit character. -/
def digitsAcc : List Char → Nat → Option Nat
  | [], acc => some acc
  | c :: cs, acc =>
    if c.isDigit then digitsAcc cs (10 * acc + (c.toNat - 48)) else none

/-- Value of a non-empty all-digit character list. -/
def digitsNum (l : List Char) : Option Nat :=
  match l with
  | [] => none
  | _ => digitsAcc l 0

/-- Split a character list at the first dot. -/
def splitAtDot : List Char → List Char × Option (List Char)
  | [] => ([], none)
  | c :: cs =>
    if c == '.' then ([], some cs)
    else
      let r := splitAtDot cs
      (c :: r.1, r.2)

/-- Model of JavaScript `parseFloat` on plain unsigned decimal literals
(`"12"`, `"0.4"`); any other input yields NaN. -/
def parseFloatJs (s : String) : JsNum :=
  match splitAtDot s.data with
  | (ip, none) =>
    match digitsNum ip with
    | some n => .num (mkRat n 1)
    | none => .nan
  | (ip, some fp) =>
    match digitsNum ip, digitsNum fp with
    | some i, some f => .num (mkRat (i * 10 ^ fp.length + f) (10 ^ fp.length))
    | _, _ => .nan

/-- Identity block of a viewer manifest (name and version). -/
structure ViewerInfo where
  name : String
  version : String
deriving DecidableEq

/-- The capability set of a viewer manifest: a fixed record of optional
fields, each absent when the manifest omits it. -/
structure ViewerCapabilities where
  ome_zarr_versions : Option (List Rat) := none
  rfcs_supported : Option (List Rat) := none
  compression_codecs : Option (List String) := none
  axes : Option Bool := none
  scale : Option Bool := none
  translation : Option Bool := none
  channels : Option Bool := none
  timepoints : Option Bool := none
  labels : Option Bool := none
  hcs_plates : Option Bool := none
  bioformats2raw_layout : Option Bool := none
  omero_metadata : Option Bool := none
deriving DecidableEq

/-- A viewer capability manifest. -/
structure ViewerManifest where
  viewer : ViewerInfo
  capabilities : ViewerCapabilities
deriving DecidableEq

/-- One axis entry of the dataset metadata. -/
structure AxisMetadata where
  name : String
  type : Option String := none
  unit : Option String := none
deriving DecidableEq

/-- One multiscales entry; only its optional `version` is read by the
validator. -/
structure MultiscaleMetadata where
  version : Option String := none
deriving DecidableEq

/-- The compressor value of a dataset: either a plain scalar codec
identifier or a structured value with an optional `id` field. -/
inductive Compressor where
  | scalar (s : String) : Compressor
  | structured (id : Option String) : Compressor
deriving DecidableEq

/-- OME-Zarr dataset metadata, as consumed by the validator.  `plate` and
`omero` are opaque values whose only relevant property is truthy
presence, so they are modelled as `Bool`. -/
structure OmeZarrMetadata where
  version : Option String := none
  multiscales : Option (List MultiscaleMetadata) := none
  axes : Option (List AxisMetadata) := none
  labels : Option (List String) := none
  plate : Bool := false
  omero : Bool := false
  compressor : Option Compressor := none
deriving DecidableEq

/-- Heterogeneous value appearing in the `required` / `found` fields of a
validation error. -/
inductive JsValue where
  | null : JsValue
  | str (s : String) : JsValue
  | num (n : JsNum) : JsValue
  | numList (l : List Rat) : JsValue
  | strList (l : List String) : JsValue
  | bool (b : Bool) : JsValue
  | compObj (c : Compressor) : JsValue
deriving DecidableEq

/-- A hard-blocker entry of the validation result. -/
structure ValidationError where
  capability : String
  message : String
  required : JsValue
  found : JsValue
deriving DecidableEq

/-- An advisory entry of the validation result. -/
structure ValidationWarning where
  capability : String
  message : String
deriving DecidableEq

/-- The result of one evaluation. -/
structure ValidationResult where
  compatible : Bool
  errors : List ValidationError
  warnings : List ValidationWarning
deriving DecidableEq

/-- JavaScript truthiness of an optional string: present and non-empty. -/
def truthyStr : Option String → Bool
  | none => false
  | some s => !(s == "")

/-- JavaScript truthiness of an optional boolean capability flag. -/
def flagB (o : Option Bool) : Bool := o.getD false

/-- Rendering of a number into message text. -/
def showJsNum : JsNum → String
  | .nan => "NaN"
  | .num q => toString q

/-- Value of `metadata.multiscales[0].version` when `multiscales` is present
and non-empty, else `none`. -/
def msVersion (m : OmeZarrMetadata) : Option String :=
  match m.multiscales with
  | some (ms0 :: _) => ms0.version
  | _ => none

/-- The version text the validator resolves: the top-level `version` if
truthy, else the version of the first multiscales entry if truthy, else
none.  Mirrors the `if (metadata.version) ... else if (...)` chain. -/
def versionText (m : OmeZarrMetadata) : Option String :=
  if truthyStr m.version then m.version
  else if truthyStr (msVersion m) then msVersion m
  else none

/-- The resolved `dataVersion`: `none` models the JavaScript `null`. -/
def resolveVersion (m : OmeZarrMetadata) : Option JsNum :=
  (versionText m).map parseFloatJs

/-- Membership test `Array.prototype.includes` on a list of numbers applied to a
`JsNum` (SameValueZero; the list holds no NaN, so NaN is never found). -/
def jsIncludes (l : List Rat) : JsNum → Bool
  | .nan => false
  | .num q => l.contains q

/-- The version-rule segment of the error list. -/
def versionIssues (v : ViewerManifest) (m : OmeZarrMetadata) : List ValidationError :=
  match resolveVersion m with
  | none =>
    [{ capability := "ome_zarr_versions"
       message := "Metadata does not specify an OME-Zarr version"
       required := .str "version"
       found := .null }]
  | some dv =>
    match v.capabilities.ome_zarr_versions with
    | none =>
      [{ capability := "ome_zarr_versions"
         message := "Viewer does not specify OME-Zarr version support (data is v" ++ showJsNum dv ++ ")"
         required := .num dv
         found := .numList [] }]
    | some l =>
      if l.length == 0 then
        [{ capability := "ome_zarr_versions"
           message := "Viewer does not specify OME-Zarr version support (data is v" ++ showJsNum dv ++ ")"
           required := .num dv
           found := .numList [] }]
      else if jsIncludes l dv then []
      else
        [{ capability := "ome_zarr_versions"
           message := "Viewer does not support OME-Zarr v" ++ showJsNum dv ++ " (supports: " ++ String.intercalate ", " (l.map toString) ++ ")"
           required := .num dv
           found := .numList l }]

/-- JavaScript truthiness of a compressor value: a scalar is truthy iff
non-empty; a structured value (an object) is always truthy. -/
def compressorTruthy : Compressor → Bool
  | .scalar s => !(s == "")
  | .structured _ => true

/-- The resolved codec: `metadata.compressor.id || metadata.compressor`.
A scalar has no `id` field, so the scalar itself is used; a structured
value yields its `id` when that is truthy, else the whole structured
value. -/
inductive Codec where
  | cstr (s : String) : Codec
  | cobj (c : Compressor) : Codec
deriving DecidableEq

/-- Codec resolution, as described above. -/
def resolveCodec : Compressor → Codec
  | .scalar s => .cstr s
  | .structured (some i) => if i == "" then .cobj (.structured (some i)) else .cstr i
  | .structured none => .cobj (.structured none)

/-- Membership test `Array.prototype.includes` of a codec in a list of codec names; a
structured codec value is never a member of a list of strings. -/
def codecMember (l : List String) : Codec → Bool
  | .cstr s => l.contains s
  | .cobj _ => false

/-- Message text of a codec (template-literal coercion: an object prints
as `[object Object]`). -/
def showCodec : Codec → String
  | .cstr s => s
  | .cobj _ => "[object Object]"

/-- The `required` value recorded for a codec. -/
def codecValue : Codec → JsValue
  | .cstr s => .str s
  | .cobj c => .compObj c

/-- The compression-codec rule: its error-list and warning-list
contributions. -/
def codecCheck (v : ViewerManifest) (m : OmeZarrMetadata) :
    List ValidationError × List ValidationWarning :=
  match m.compressor with
  | none => ([], [])
  | some c =>
    if compressorTruthy c then
      let codec := resolveCodec c
      match v.capabilities.compression_codecs with
      | none =>
        ([], [{ capability := "compression_codecs"
                message := "Data uses codec \x27" ++ showCodec codec ++ "\x27 but viewer doesn\x27t declare codec support - compatibility unknown" }])
      | some l =>
        if codecMember l codec then ([], [])
        else
          ([{ capability := "compression_codecs"
              message := "Viewer does not support compression codec: " ++ showCodec codec
              required := codecValue codec
              found := .strList l }], [])
    else ([], [])

/-- Whether any axis entry has name `c` or type `channel`
(`metadata.axes?.some(...)`; an absent axes list yields false). -/
def hasChannels (m : OmeZarrMetadata) : Bool :=
  match m.axes with
  | none => false
  | some l => l.any (fun ax => ax.name == "c" || ax.type == some "channel")

/-- Whether any axis entry has name `t` or type `time`. -/
def hasTime (m : OmeZarrMetadata) : Bool :=
  match m.axes with
  | none => false
  | some l => l.any (fun ax => ax.name == "t" || ax.type == some "time")

/-- The channels-rule segment of the error list. -/
def channelIssues (v : ViewerManifest) (m : OmeZarrMetadata) : List ValidationError :=
  if hasChannels m && !flagB v.capabilities.channels then
    [{ capability := "channels"
       message := "Dataset has multiple channels but viewer does not support them"
       required := .bool true
       found := .bool false }]
  else []

/-- The timepoints-rule segment of the error list. -/
def timeIssues (v : ViewerManifest) (m : OmeZarrMetadata) : List ValidationError :=
  if hasTime m && !flagB v.capabilities.timepoints then
    [{ capability := "timepoints"
       message := "Dataset has multiple timepoints but viewer does not support them"
       required := .bool true
       found := .bool false }]
  else []

/-- The HCS-plate-rule segment of the error list. -/
def plateIssues (v : ViewerManifest) (m : OmeZarrMetadata) : List ValidationError :=
  if m.plate && !flagB v.capabilities.hcs_plates then
    [{ capability := "hcs_plates"
       message := "Dataset is an HCS plate but viewer does not support plates"
       required := .bool true
       found := .bool false }]
  else []

/-- The axes advisory rule (an axes list, even empty, is truthy). -/
def axesWarn (v : ViewerManifest) (m : OmeZarrMetadata) : List ValidationWarning :=
  if m.axes.isSome && !flagB v.capabilities.axes then
    [{ capability := "axes"
       message := "Dataset has axis metadata but viewer may not respect it" }]
  else []

/-- The labels advisory rule. -/
def labelsWarn (v : ViewerManifest) (m : OmeZarrMetadata) : List ValidationWarning :=
  if (match m.labels with | none => false | some l => 0 < l.length) && !flagB v.capabilities.labels then
    [{ capability := "labels"
       message := "Dataset has labels but viewer may not display them" }]
  else []

/-- The OMERO advisory rule. -/
def omeroWarn (v : ViewerManifest) (m : OmeZarrMetadata) : List ValidationWarning :=
  if m.omero && !flagB v.capabilities.omero_metadata then
    [{ capability := "omero_metadata"
       message := "Dataset has OMERO metadata but viewer may not use it" }]
  else []

/-- Function `validateViewer` from `src/validator.ts`: evaluates all rules in
source order (the error and warning arrays each receive their pushes in
the order of the source) and reports `compatible` iff no error. -/
def validateViewer (v : ViewerManifest) (m : OmeZarrMetadata) : ValidationResult :=
  let errors :=
    versionIssues v m ++ (codecCheck v m).1 ++ channelIssues v m ++
      timeIssues v m ++ plateIssues v m
  let warnings :=
    (codecCheck v m).2 ++ axesWarn v m ++ labelsWarn v m ++ omeroWarn v m
  { compatible := errors.length == 0
    errors := errors
    warnings := warnings }

/-- Function `isCompatible` from `src/validator.ts`. -/
def isCompatible (v : ViewerManifest) (m : OmeZarrMetadata) : Bool :=
  (validateViewer v m).compatible

/-- Function `getCompatibleViewers` from `src/index.ts`. -/
def getCompatibleViewers (manifests : List ViewerManifest) (m : OmeZarrMetadata) :
    List String :=
  (manifests.filter (fun v => isCompatible v m)).map (fun v => v.viewer.name)

/-- One entry of the detailed batch result. -/
structure NamedValidation where
  name : String
  validation : ValidationResult
deriving DecidableEq

/-- Function `getCompatibleViewersWithDetails` from `src/index.ts`. -/
def getCompatibleViewersWithDetails (manifests : List ViewerManifest) (m : OmeZarrMetadata) :
    List NamedValidation :=
  (manifests.filter (fun v => isCompatible v m)).map
    (fun v => { name := v.viewer.name, validation := validateViewer v m })

/-! ## Structural lemmas about the evaluator -/

/-- A list of errors that is either empty or a single entry with the given
capability key. -/
def isSegOf (l : List ValidationError) (c : String) : Prop :=
  l = [] ∨ ∃ e, l = [e] ∧ e.capability = c

/-- A list of warnings that is either empty or a single entry with the
given capability key. -/
def isWSegOf (l : List ValidationWarning) (c : String) : Prop :=
  l = [] ∨ ∃ w, l = [w] ∧ w.capability = c

theorem versionIssues_seg (v : ViewerManifest) (m : OmeZarrMetadata) :
    isSegOf (versionIssues v m) "ome_zarr_versions" := by
  unfold isSegOf versionIssues
  repeat' split
  all_goals first
    | exact Or.inl rfl
    | exact Or.inr ⟨_, rfl, rfl⟩

theorem codecErrors_seg (v : ViewerManifest) (m : OmeZarrMetadata) :
    isSegOf (codecCheck v m).1 "compression_codecs" := by
  unfold isSegOf codecCheck
  dsimp only
  repeat' split
  all_goals first
    | exact Or.inl rfl
    | exact Or.inr ⟨_, rfl, rfl⟩

theorem channelIssues_seg (v : ViewerManifest) (m : OmeZarrMetadata) :
    isSegOf (channelIssues v m) "channels" := by
  unfold isSegOf channelIssues
  split
  · exact Or.inr ⟨_, rfl, rfl⟩
  · exact Or.inl rfl

theorem timeIssues_seg (v : ViewerManifest) (m : OmeZarrMetadata) :
    isSegOf (timeIssues v m) "timepoints" := by
  unfold isSegOf timeIssues
  split
  · exact Or.inr ⟨_, rfl, rfl⟩
  · exact Or.inl rfl

theorem plateIssues_seg (v : ViewerManifest) (m : OmeZarrMetadata) :
    isSegOf (plateIssues v m) "hcs_plates" := by
  unfold isSegOf plateIssues
  split
  · exact Or.inr ⟨_, rfl, rfl⟩
  · exact Or.inl rfl

theorem codecWarnings_seg (v : ViewerManifest) (m : OmeZarrMetadata) :
    isWSegOf (codecCheck v m).2 "compression_codecs" := by
  unfold isWSegOf codecCheck
  dsimp only
  repeat' split
  all_goals first
    | exact Or.inl rfl
    | exact Or.inr ⟨_, rfl, rfl⟩

theorem axesWarn_seg (v : ViewerManifest) (m : OmeZarrMetadata) :
    isWSegOf (axesWarn v m) "axes" := by
  unfold isWSegOf axesWarn
  split
  · exact Or.inr ⟨_, rfl, rfl⟩
  · exact Or.inl rfl

theorem labelsWarn_seg (v : ViewerManifest) (m : OmeZarrMetadata) :
    isWSegOf (labelsWarn v m) "labels" := by
  unfold isWSegOf labelsWarn
  split
  · exact Or.inr ⟨_, rfl, rfl⟩
  · exact Or.inl rfl

theorem omeroWarn_seg (v : ViewerManifest) (m : OmeZarrMetadata) :
    isWSegOf (omeroWarn v m) "omero_metadata" := by
  unfold isWSegOf omeroWarn
  split
  · exact Or.inr ⟨_, rfl, rfl⟩
  · exact Or.inl rfl

theorem isSegOf_exists_iff {l : List ValidationError} {c : String}
    (h : isSegOf l c) : (∃ e ∈ l, e.capability = c) ↔ l ≠ [] := by
  rcases h with rfl | ⟨e, rfl, he⟩
  · simp
  · simp [he]

theorem isSegOf_not_cap {l : List ValidationError} {c : String}
    (h : isSegOf l c) (d : String) (hne : c ≠ d) :
    ¬ ∃ e ∈ l, e.capability = d := by
  rcases h with rfl | ⟨e, rfl, he⟩
  · simp
  · simp [he, hne]

theorem isSegOf_cap_sublist {l : List ValidationError} {c : String}
    (h : isSegOf l c) : List.Sublist (l.map (fun e => e.capability)) [c] := by
  rcases h with rfl | ⟨e, rfl, he⟩
  · exact List.nil_sublist _
  · simp [he]

theorem isSegOf_len_le {l : List ValidationError} {c : String}
    (h : isSegOf l c) : l.length ≤ 1 := by
  rcases h with rfl | ⟨e, rfl, he⟩ <;> simp

theorem isWSegOf_exists_iff {l : List ValidationWarning} {c : String}
    (h : isWSegOf l c) : (∃ w ∈ l, w.capability = c) ↔ l ≠ [] := by
  rcases h with rfl | ⟨w, rfl, hw⟩
  · simp
  · simp [hw]

theorem isWSegOf_not_cap {l : List ValidationWarning} {c : String}
    (h : isWSegOf l c) (d : String) (hne : c ≠ d) :
    ¬ ∃ w ∈ l, w.capability = d := by
  rcases h with rfl | ⟨w, rfl, hw⟩
  · simp
  · simp [hw, hne]

theorem isWSegOf_cap_sublist {l : List ValidationWarning} {c : String}
    (h : isWSegOf l c) : List.Sublist (l.map (fun w => w.capability)) [c] := by
  rcases h with rfl | ⟨w, rfl, hw⟩
  · exact List.nil_sublist _
  · simp [hw]

theorem validateViewer_errors (v : ViewerManifest) (m : OmeZarrMetadata) :
    (validateViewer v m).errors =
      versionIssues v m ++ (codecCheck v m).1 ++ channelIssues v m ++
        timeIssues v m ++ plateIssues v m := rfl

theorem validateViewer_warnings (v : ViewerManifest) (m : OmeZarrMetadata) :
    (validateViewer v m).warnings =
      (codecCheck v m).2 ++ axesWarn v m ++ labelsWarn v m ++ omeroWarn v m := rfl

theorem validateViewer_compatible (v : ViewerManifest) (m : OmeZarrMetadata) :
    (validateViewer v m).compatible = ((validateViewer v m).errors.length == 0) := rfl

/-- An error entry with the version capability exists in the full result
iff the version segment is non-empty. -/
theorem errors_version_iff (v : ViewerManifest) (m : OmeZarrMetadata) :
    (∃ e ∈ (validateViewer v m).errors, e.capability = "ome_zarr_versions") ↔
      versionIssues v m ≠ [] := by
  rw [validateViewer_errors]
  have h2 := isSegOf_not_cap (codecErrors_seg v m) "ome_zarr_versions" (by decide)
  have h3 := isSegOf_not_cap (channelIssues_seg v m) "ome_zarr_versions" (by decide)
  have h4 := isSegOf_not_cap (timeIssues_seg v m) "ome_zarr_versions" (by decide)
  have h5 := isSegOf_not_cap (plateIssues_seg v m) "ome_zarr_versions" (by decide)
  simp only [List.mem_append, or_and_right, exists_or,
    isSegOf_exists_iff (versionIssues_seg v m), h2, h3, h4, h5, or_false, false_or]

/-- An error entry with the channels capability exists in the full result
iff the channels segment is non-empty. -/
theorem errors_channels_iff (v : ViewerManifest) (m : OmeZarrMetadata) :
    (∃ e ∈ (validateViewer v m).errors, e.capability = "channels") ↔
      channelIssues v m ≠ [] := by
  rw [validateViewer_errors]
  have h1 := isSegOf_not_cap (versionIssues_seg v m) "channels" (by decide)
  have h2 := isSegOf_not_cap (codecErrors_seg v m) "channels" (by decide)
  have h4 := isSegOf_not_cap (timeIssues_seg v m) "channels" (by decide)
  have h5 := isSegOf_not_cap (plateIssues_seg v m) "channels" (by decide)
  simp only [List.mem_append, or_and_right, exists_or,
    isSegOf_exists_iff (channelIssues_seg v m), h1, h2, h4, h5, or_false, false_or]

/-- An error entry with the codec capability exists in the full result iff
the codec error segment is non-empty. -/
theorem errors_codec_iff (v : ViewerManifest) (m : OmeZarrMetadata) :
    (∃ e ∈ (validateViewer v m).errors, e.capability = "compression_codecs") ↔
      (codecCheck v m).1 ≠ [] := by
  rw [validateViewer_errors]
  have h1 := isSegOf_not_cap (versionIssues_seg v m) "compression_codecs" (by decide)
  have h3 := isSegOf_not_cap (channelIssues_seg v m) "compression_codecs" (by decide)
  have h4 := isSegOf_not_cap (timeIssues_seg v m) "compression_codecs" (by decide)
  have h5 := isSegOf_not_cap (plateIssues_seg v m) "compression_codecs" (by decide)
  simp only [List.mem_append, or_and_right, exists_or,
    isSegOf_exists_iff (codecErrors_seg v m), h1, h3, h4, h5, or_false, false_or]

/-- A warning entry with the codec capability exists in the full result
iff the codec warning segment is non-empty. -/
theorem warnings_codec_iff (v : ViewerManifest) (m : OmeZarrMetadata) :
    (∃ w ∈ (validateViewer v m).warnings, w.capability = "compression_codecs") ↔
      (codecCheck v m).2 ≠ [] := by
  rw [validateViewer_warnings]
  have h2 := isWSegOf_not_cap (axesWarn_seg v m) "compression_codecs" (by decide)
  have h3 := isWSegOf_not_cap (labelsWarn_seg v m) "compression_codecs" (by decide)
  have h4 := isWSegOf_not_cap (omeroWarn_seg v m) "compression_codecs" (by decide)
  simp only [List.mem_append, or_and_right, exists_or,
    isWSegOf_exists_iff (codecWarnings_seg v m), h2, h3, h4, or_false, false_or]

/-! ## Claim theorems -/

/-- C2: for every declaration and descriptor, the result of
`validateViewer` has `compatible` true iff its error list is empty; in
particular warnings never affect the verdict. -/
theorem c2_compatible_iff_no_errors (v : ViewerManifest) (m : OmeZarrMetadata) :
    (validateViewer v m).compatible = true ↔ (validateViewer v m).errors = [] := by
  rw [validateViewer_compatible]
  simp [List.length_eq_zero]

/-- C6: whenever the dataset version cannot be resolved (neither a truthy
top-level `version` nor a truthy version in the first multiscales entry),
`validateViewer` reports an error with capability `ome_zarr_versions`,
`required` the string `version` and `found` null, regardless of the
declaration. -/
theorem c6_no_version_error (v : ViewerManifest) (m : OmeZarrMetadata)
    (h : resolveVersion m = none) :
    ∃ e ∈ (validateViewer v m).errors,
      e.capability = "ome_zarr_versions" ∧ e.required = JsValue.str "version" ∧
        e.found = JsValue.null := by
  have hv : versionIssues v m =
      [{ capability := "ome_zarr_versions"
         message := "Metadata does not specify an OME-Zarr version"
         required := .str "version"
         found := .null }] := by
    unfold versionIssues
    rw [h]
  rw [validateViewer_errors, hv]
  refine ⟨{ capability := "ome_zarr_versions"
            message := "Metadata does not specify an OME-Zarr version"
            required := .str "version"
            found := .null }, ?_, rfl, rfl, rfl⟩
  simp

/-- C3: the result of `validateViewer` contains an error with capability
`channels` iff some axis entry has name `c` or type `channel` and the
declaration does not declare channel support. -/
theorem c3_channels_error_iff (v : ViewerManifest) (m : OmeZarrMetadata) :
    (∃ e ∈ (validateViewer v m).errors, e.capability = "channels") ↔
      ((∃ ax ∈ m.axes.getD [], ax.name = "c" ∨ ax.type = some "channel") ∧
        flagB v.capabilities.channels = false) := by
  rw [errors_channels_iff]
  have hch : channelIssues v m ≠ [] ↔
      (hasChannels m && !flagB v.capabilities.channels) = true := by
    unfold channelIssues
    split <;> simp_all
  rw [hch, Bool.and_eq_true, Bool.not_eq_true']
  have hx : hasChannels m = true ↔
      ∃ ax ∈ m.axes.getD [], ax.name = "c" ∨ ax.type = some "channel" := by
    unfold hasChannels
    cases hm : m.axes <;> simp [hm, List.any_eq_true]
  rw [hx]

/-- C1: when the resolved dataset version text parses to a number `n`, the
result of `validateViewer` has an error with capability
`ome_zarr_versions` iff the declared version list is absent, empty, or
does not contain `n` (membership being numeric). -/
theorem c1_version_membership (v : ViewerManifest) (m : OmeZarrMetadata) (n : Rat)
    (h : resolveVersion m = some (JsNum.num n)) :
    ((∃ e ∈ (validateViewer v m).errors, e.capability = "ome_zarr_versions") ↔
      (v.capabilities.ome_zarr_versions = none ∨
        v.capabilities.ome_zarr_versions = some [] ∨
        ∃ l, v.capabilities.ome_zarr_versions = some l ∧ n ∉ l)) := by
  rw [errors_version_iff]
  unfold versionIssues
  rw [h]
  rcases hv : v.capabilities.ome_zarr_versions with _ | l
  · simp
  · rcases l with _ | ⟨q, l⟩
    · simp
    · simp only [hv, List.length_cons, Option.some.injEq, jsIncludes]
      have hne : ((q :: l).length == 0) = false := by simp
      rw [List.length_cons] at hne
      rw [hne]
      simp only [Bool.false_eq_true, if_false]
      split
    
      · rename_i hc
        have hmem : n ∈ q :: l := List.elem_iff.mp hc
        simp [hmem]
      · rename_i hc
        have hmem : n ∉ q :: l := fun hm => hc (List.elem_iff.mpr hm)
        simp [hmem]

/-- C8: the batch selector returns exactly the names of the declarations
whose evaluation is compatible, in input order (a sublist of the input
names), and both batch operations return `[]` on an empty input list. -/
theorem c8_batch_selector (ms : List ViewerManifest) (m : OmeZarrMetadata) :
    getCompatibleViewers ms m =
        (ms.filter (fun v => (validateViewer v m).compatible)).map (fun v => v.viewer.name) ∧
      List.Sublist (getCompatibleViewers ms m) (ms.map (fun v => v.viewer.name)) ∧
      getCompatibleViewers [] m = [] ∧
      getCompatibleViewersWithDetails [] m = [] := by
  refine ⟨rfl, ?_, rfl, rfl⟩
  exact (List.filter_sublist ms).map (fun v => v.viewer.name)

/-- C9: the error list of `validateViewer` has at most one entry per
capability key (its capability keys are pairwise distinct), hence at most
five errors; the warning list has at most four entries. -/
theorem c9_at_most_one_error_per_capability (v : ViewerManifest) (m : OmeZarrMetadata) :
    ((validateViewer v m).errors.map (fun e => e.capability)).Nodup ∧
      (validateViewer v m).errors.length ≤ 5 ∧
      (validateViewer v m).warnings.length ≤ 4 := by
  have he : List.Sublist ((validateViewer v m).errors.map (fun e => e.capability))
      ["ome_zarr_versions", "compression_codecs", "channels", "timepoints", "hcs_plates"] := by
    rw [validateViewer_errors]
    simp only [List.map_append]
    exact ((((isSegOf_cap_sublist (versionIssues_seg v m)).append
      (isSegOf_cap_sublist (codecErrors_seg v m))).append
      (isSegOf_cap_sublist (channelIssues_seg v m))).append
      (isSegOf_cap_sublist (timeIssues_seg v m))).append
      (isSegOf_cap_sublist (plateIssues_seg v m))
  have hw : List.Sublist ((validateViewer v m).warnings.map (fun w => w.capability))
      ["compression_codecs", "axes", "labels", "omero_metadata"] := by
    rw [validateViewer_warnings]
    simp only [List.map_append]
    exact (((isWSegOf_cap_sublist (codecWarnings_seg v m)).append
      (isWSegOf_cap_sublist (axesWarn_seg v m))).append
      (isWSegOf_cap_sublist (labelsWarn_seg v m))).append
      (isWSegOf_cap_sublist (omeroWarn_seg v m))
  refine ⟨List.Nodup.sublist he (by decide), ?_, ?_⟩
  · have := he.length_le
    rwa [List.length_map] at this
  · have := hw.length_le
    rwa [List.length_map] at this

theorem validationResult_ext {r s : ValidationResult}
    (h1 : r.compatible = s.compatible) (h2 : r.errors = s.errors)
    (h3 : r.warnings = s.warnings) : r = s := by
  cases r
  cases s
  cases h1
  cases h2
  cases h3
  rfl

/-- C10: a top-level version field holding the empty string is treated as
absent (the source tests truthiness, not field presence): the whole
evaluation result coincides with the result on the descriptor without a
version field, and when the multiscales fallback is also not truthy the
no-version error is produced. -/
theorem c10_empty_version_treated_absent (v : ViewerManifest) (m : OmeZarrMetadata)
    (h : m.version = some "") :
    validateViewer v m = validateViewer v { m with version := none } ∧
      (truthyStr (msVersion m) = false →
        ∃ e ∈ (validateViewer v m).errors,
          e.capability = "ome_zarr_versions" ∧ e.required = JsValue.str "version" ∧
            e.found = JsValue.null) := by
  have hvt : versionText m = versionText { m with version := none } := by
    unfold versionText
    rw [h]
    rfl
  have hv : versionIssues v m = versionIssues v { m with version := none } := by
    unfold versionIssues resolveVersion
    rw [hvt]
  have herr : (validateViewer v m).errors =
      (validateViewer v { m with version := none }).errors := by
    rw [validateViewer_errors, validateViewer_errors, hv]
    rfl
  have hcmp : (validateViewer v m).compatible =
      (validateViewer v { m with version := none }).compatible := by
    rw [validateViewer_compatible, validateViewer_compatible, herr]
  refine ⟨validationResult_ext hcmp herr rfl, ?_⟩
  intro ht
  have hres : resolveVersion m = none := by
    have h0 : truthyStr (some "") = false := rfl
    unfold resolveVersion versionText
    rw [h, h0, ht]
    simp
  have hvi : versionIssues v m =
      [{ capability := "ome_zarr_versions"
         message := "Metadata does not specify an OME-Zarr version"
         required := .str "version"
         found := .null }] := by
    unfold versionIssues
    rw [hres]
  rw [validateViewer_errors, hvi]
  refine ⟨{ capability := "ome_zarr_versions"
            message := "Metadata does not specify an OME-Zarr version"
            required := .str "version"
            found := .null }, ?_, rfl, rfl, rfl⟩
  simp

/-- C4 (amended: the rule fires when the compressor is present and
JavaScript-truthy, that is a non-empty scalar or any structured value;
an absent or falsy compressor contributes nothing): when it fires with no
declared codec list the result gains a codec warning and no codec error;
when a codec list is declared and the resolved codec is not a member the
result gains the codec error carrying the codec and the declared list. -/
theorem c4_codec_rule (v : ViewerManifest) (m : OmeZarrMetadata) :
    ((m.compressor = none ∨ m.compressor = some (Compressor.scalar "")) →
      (¬ ∃ e ∈ (validateViewer v m).errors, e.capability = "compression_codecs") ∧
        ¬ ∃ w ∈ (validateViewer v m).warnings, w.capability = "compression_codecs") ∧
    (∀ c, m.compressor = some c → compressorTruthy c = true →
      (v.capabilities.compression_codecs = none →
        (∃ w ∈ (validateViewer v m).warnings, w.capability = "compression_codecs") ∧
          ¬ ∃ e ∈ (validateViewer v m).errors, e.capability = "compression_codecs") ∧
      ∀ l, v.capabilities.compression_codecs = some l →
        codecMember l (resolveCodec c) = false →
        ({ capability := "compression_codecs"
           message := "Viewer does not support compression codec: " ++ showCodec (resolveCodec c)
           required := codecValue (resolveCodec c)
           found := JsValue.strList l } : ValidationError) ∈ (validateViewer v m).errors) := by
  constructor
  · intro hc
    have hz : codecCheck v m = ([], []) := by
      unfold codecCheck
      rcases hc with hc | hc
      · rw [hc]
      · rw [hc]
        rfl
    constructor
    · rw [errors_codec_iff]
      simp [hz]
    · rw [warnings_codec_iff]
      simp [hz]
  · intro c hc ht
    constructor
    · intro hn
      have hcc : codecCheck v m =
          ([], [{ capability := "compression_codecs"
                  message := "Data uses codec \x27" ++ showCodec (resolveCodec c) ++ "\x27 but viewer doesn\x27t declare codec support - compatibility unknown" }]) := by
        simp [codecCheck, hc, ht, hn]
      constructor
      · rw [warnings_codec_iff, hcc]
        simp
      · rw [errors_codec_iff, hcc]
        simp
    · intro l hl hm
      have hcc : (codecCheck v m).1 =
          [{ capability := "compression_codecs"
             message := "Viewer does not support compression codec: " ++ showCodec (resolveCodec c)
             required := codecValue (resolveCodec c)
             found := JsValue.strList l }] := by
        simp [codecCheck, hc, ht, hl, hm]
      rw [validateViewer_errors, hcc]
      simp

/-- C5 (amended: a structured compressor with no id does not skip the
codec rule; the structured value itself is used as the codec, which is
never a member of a declared string list): with no declared codec list
the result gains the unknown-codec warning; with a declared list it gains
the codec error carrying the structured value and the list. -/
theorem c5_structured_without_id (v : ViewerManifest) (m : OmeZarrMetadata)
    (h : m.compressor = some (Compressor.structured none)) :
    (v.capabilities.compression_codecs = none →
      ∃ w ∈ (validateViewer v m).warnings, w.capability = "compression_codecs") ∧
    (∀ l, v.capabilities.compression_codecs = some l →
      ({ capability := "compression_codecs"
         message := "Viewer does not support compression codec: " ++
           showCodec (resolveCodec (Compressor.structured none))
         required := codecValue (resolveCodec (Compressor.structured none))
         found := JsValue.strList l } : ValidationError) ∈ (validateViewer v m).errors) := by
  constructor
  · intro hn
    have hcc : (codecCheck v m).2 =
        [{ capability := "compression_codecs"
           message := "Data uses codec \x27" ++ showCodec (resolveCodec (Compressor.structured none)) ++ "\x27 but viewer doesn\x27t declare codec support - compatibility unknown" }] := by
      simp [codecCheck, h, hn, compressorTruthy]
    rw [warnings_codec_iff, hcc]
    simp
  · intro l hl
    have hcc : (codecCheck v m).1 =
        [{ capability := "compression_codecs"
           message := "Viewer does not support compression codec: " ++
             showCodec (resolveCodec (Compressor.structured none))
           required := codecValue (resolveCodec (Compressor.structured none))
           found := JsValue.strList l }] := by
      simp [codecCheck, h, hl, compressorTruthy, codecMember, resolveCodec]
    rw [validateViewer_errors, hcc]
    simp

/-! ## Feature additions and monotonicity -/

/-- The hard-rule-triggering dataset features the monotonicity claim
ranges over: a plate value, a channel axis, a time axis, a compressor,
or a version value. -/
inductive Feature where
  | plateF : Feature
  | channelAxisF (ax : AxisMetadata) : Feature
  | timeAxisF (ax : AxisMetadata) : Feature
  | compressorF (c : Compressor) : Feature
  | versionF (s : String) : Feature
deriving DecidableEq

/-- Adding a feature to a descriptor (axes are appended, the other
fields are set). -/
def addFeature : Feature → OmeZarrMetadata → OmeZarrMetadata
  | .plateF, m => { m with plate := true }
  | .channelAxisF ax, m => { m with axes := some (m.axes.getD [] ++ [ax]) }
  | .timeAxisF ax, m => { m with axes := some (m.axes.getD [] ++ [ax]) }
  | .compressorF c, m => { m with compressor := some c }
  | .versionF s, m => { m with version := some s }

/-- Whether a newly added version text `s` triggers the version hard rule
against the declaration. -/
def versionTriggers (v : ViewerManifest) (s : String) : Bool :=
  match v.capabilities.ome_zarr_versions with
  | none => true
  | some l => !(jsIncludes l (parseFloatJs s))

/-- Whether a newly added compressor triggers the codec hard rule (an
error, not merely a warning) against the declaration. -/
def compressorTriggers (v : ViewerManifest) (c : Compressor) : Bool :=
  match v.capabilities.compression_codecs with
  | none => false
  | some l => !(codecMember l (resolveCodec c))

/-- The added feature is fresh in the descriptor and triggers its hard
rule against the fixed declaration. -/
def hardTrigger (v : ViewerManifest) (f : Feature) (m : OmeZarrMetadata) : Prop :=
  match f with
  | .plateF => m.plate = false ∧ flagB v.capabilities.hcs_plates = false
  | .channelAxisF ax =>
      (ax.name = "c" ∨ ax.type = some "channel") ∧
        flagB v.capabilities.channels = false
  | .timeAxisF ax =>
      (ax.name = "t" ∨ ax.type = some "time") ∧
        flagB v.capabilities.timepoints = false
  | .compressorF c =>
      m.compressor = none ∧ compressorTruthy c = true ∧
        compressorTriggers v c = true
  | .versionF s =>
      truthyStr m.version = false ∧ truthyStr (some s) = true ∧
        versionTriggers v s = true

theorem hasChannels_addAxis (m : OmeZarrMetadata) (ax : AxisMetadata)
    (h : hasChannels m = true) :
    hasChannels { m with axes := some (m.axes.getD [] ++ [ax]) } = true := by
  unfold hasChannels at h ⊢
  cases hm : m.axes <;> rw [hm] at h
  · cases h
  · rename_i l
    have h2 : (l.any fun ax => ax.name == "c" || ax.type == some "channel") = true := h
    simp only [hm, Option.getD_some, List.any_append, h2, Bool.true_or]

theorem hasTime_addAxis (m : OmeZarrMetadata) (ax : AxisMetadata)
    (h : hasTime m = true) :
    hasTime { m with axes := some (m.axes.getD [] ++ [ax]) } = true := by
  unfold hasTime at h ⊢
  cases hm : m.axes <;> rw [hm] at h
  · cases h
  · rename_i l
    have h2 : (l.any fun ax => ax.name == "t" || ax.type == some "time") = true := h
    simp only [hm, Option.getD_some, List.any_append, h2, Bool.true_or]

theorem channelIssues_addAxis (v : ViewerManifest) (m : OmeZarrMetadata) (ax : AxisMetadata) :
    List.Sublist (channelIssues v m)
      (channelIssues v { m with axes := some (m.axes.getD [] ++ [ax]) }) := by
  cases hc : hasChannels m
  · have hz : channelIssues v m = [] := by
      unfold channelIssues
      rw [hc]
      simp
    rw [hz]
    exact List.nil_sublist _
  · have h2 := hasChannels_addAxis m ax hc
    unfold channelIssues
    rw [hc, h2]

theorem timeIssues_addAxis (v : ViewerManifest) (m : OmeZarrMetadata) (ax : AxisMetadata) :
    List.Sublist (timeIssues v m)
      (timeIssues v { m with axes := some (m.axes.getD [] ++ [ax]) }) := by
  cases hc : hasTime m
  · have hz : timeIssues v m = [] := by
      unfold timeIssues
      rw [hc]
      simp
    rw [hz]
    exact List.nil_sublist _
  · have h2 := hasTime_addAxis m ax hc
    unfold timeIssues
    rw [hc, h2]

theorem compat_mono {v : ViewerManifest} {m m' : OmeZarrMetadata}
    (hlen : (validateViewer v m).errors.length ≤ (validateViewer v m').errors.length) :
    (validateViewer v m').compatible = true → (validateViewer v m).compatible = true := by
  intro hc
  rw [validateViewer_compatible] at hc ⊢
  simp only [beq_iff_eq] at hc ⊢
  omega

/-- C7 (amended: for a non-version feature addition every existing error
entry survives, so the old error list is a sublist of the new one; a
hard-triggering version addition cannot decrease the number of errors,
though it may replace the single version error entry; in every case
`compatible` can only change from true to false, never from false to
true). -/
theorem c7_monotonicity (v : ViewerManifest) (f : Feature) (m : OmeZarrMetadata)
    (h : hardTrigger v f m) :
    (validateViewer v m).errors.length ≤ (validateViewer v (addFeature f m)).errors.length ∧
      ((validateViewer v (addFeature f m)).compatible = true →
        (validateViewer v m).compatible = true) ∧
      ((∀ s, f ≠ Feature.versionF s) →
        List.Sublist (validateViewer v m).errors
          (validateViewer v (addFeature f m)).errors) := by
  cases f with
  | plateF =>
    obtain ⟨hp, _⟩ := h
    have hz : plateIssues v m = [] := by
      unfold plateIssues
      rw [hp]
      simp
    have hsub : List.Sublist (validateViewer v m).errors
        (validateViewer v (addFeature Feature.plateF m)).errors := by
      rw [validateViewer_errors, validateViewer_errors, hz]
      exact ((((List.Sublist.refl _).append (List.Sublist.refl _)).append
        (List.Sublist.refl _)).append (List.Sublist.refl _)).append (List.nil_sublist _)
    exact ⟨hsub.length_le, compat_mono hsub.length_le, fun _ => hsub⟩
  | channelAxisF ax =>
    have hsub : List.Sublist (validateViewer v m).errors
        (validateViewer v (addFeature (Feature.channelAxisF ax) m)).errors := by
      rw [validateViewer_errors, validateViewer_errors]
      exact ((((List.Sublist.refl _).append (List.Sublist.refl _)).append
        (channelIssues_addAxis v m ax)).append (timeIssues_addAxis v m ax)).append
        (List.Sublist.refl _)
    exact ⟨hsub.length_le, compat_mono hsub.length_le, fun _ => hsub⟩
  | timeAxisF ax =>
    have hsub : List.Sublist (validateViewer v m).errors
        (validateViewer v (addFeature (Feature.timeAxisF ax) m)).errors := by
      rw [validateViewer_errors, validateViewer_errors]
      exact ((((List.Sublist.refl _).append (List.Sublist.refl _)).append
        (channelIssues_addAxis v m ax)).append (timeIssues_addAxis v m ax)).append
        (List.Sublist.refl _)
    exact ⟨hsub.length_le, compat_mono hsub.length_le, fun _ => hsub⟩
  | compressorF c =>
    obtain ⟨hc0, _, _⟩ := h
    have hz : (codecCheck v m).1 = [] := by
      unfold codecCheck
      rw [hc0]
    have hsub : List.Sublist (validateViewer v m).errors
        (validateViewer v (addFeature (Feature.compressorF c) m)).errors := by
      rw [validateViewer_errors, validateViewer_errors, hz]
      exact ((((List.Sublist.refl _).append (List.nil_sublist _)).append
        (List.Sublist.refl _)).append (List.Sublist.refl _)).append (List.Sublist.refl _)
    exact ⟨hsub.length_le, compat_mono hsub.length_le, fun _ => hsub⟩
  | versionF s =>
    obtain ⟨hm0, hs, htr⟩ := h
    have hres : resolveVersion (addFeature (Feature.versionF s) m) =
        some (parseFloatJs s) := by
      unfold addFeature resolveVersion versionText
      simp [hs]
    have ha : (versionIssues v (addFeature (Feature.versionF s) m)).length = 1 := by
      unfold versionIssues
      rw [hres]
      rcases hv : v.capabilities.ome_zarr_versions with _ | l
      · simp
      · have hji : jsIncludes l (parseFloatJs s) = false := by
          unfold versionTriggers at htr
          rw [hv] at htr
          simpa using htr
        rcases l with _ | ⟨q, l'⟩
        · simp
        · simp [hji]
    have hb := isSegOf_len_le (versionIssues_seg v m)
    have hlen : (validateViewer v m).errors.length ≤
        (validateViewer v (addFeature (Feature.versionF s) m)).errors.length := by
      rw [validateViewer_errors, validateViewer_errors]
      have e1 : (codecCheck v (addFeature (Feature.versionF s) m)).1 =
          (codecCheck v m).1 := rfl
      have e2 : channelIssues v (addFeature (Feature.versionF s) m) =
          channelIssues v m := rfl
      have e3 : timeIssues v (addFeature (Feature.versionF s) m) =
          timeIssues v m := rfl
      have e4 : plateIssues v (addFeature (Feature.versionF s) m) =
          plateIssues v m := rfl
      rw [e1, e2, e3, e4]
      simp only [List.length_append]
      rw [ha]
      omega
    refine ⟨hlen, compat_mono hlen, ?_⟩
    intro hne
    exact absurd rfl (hne s)

/-! ## Concrete manifests and descriptors for witnesses -/

/-- A concrete viewer manifest: supports v0.4, blosc and gzip, channels
and timepoints. -/
def fullViewer : ViewerManifest :=
  { viewer := { name := "FullViewer", version := "1.0.0" }
    capabilities :=
      { ome_zarr_versions := some [mkRat 2 5]
        compression_codecs := some ["blosc", "gzip"]
        channels := some true
        timepoints := some true } }

/-- A concrete viewer manifest declaring only v0.4 support. -/
def bareViewer : ViewerManifest :=
  { viewer := { name := "BareViewer", version := "0.1.0" }
    capabilities := { ome_zarr_versions := some [mkRat 2 5] } }

/-- A dataset descriptor carrying only a v0.4 version. -/
def plainMeta : OmeZarrMetadata := { version := some "0.4" }

/-- The empty dataset descriptor. -/
def emptyMeta : OmeZarrMetadata := {}

/-- A descriptor with a top-level version that is the empty string. -/
def emptyVersionMeta : OmeZarrMetadata := { version := some "" }

/-- A v0.4 descriptor with a truthy scalar compressor. -/
def scalarCompMeta : OmeZarrMetadata :=
  { version := some "0.4", compressor := some (Compressor.scalar "lz4") }

/-- A v0.4 descriptor with a falsy scalar compressor (empty string). -/
def falsyCompMeta : OmeZarrMetadata :=
  { version := some "0.4", compressor := some (Compressor.scalar "") }

/-- A v0.4 descriptor whose compressor is a structured value without an
id field. -/
def structMeta : OmeZarrMetadata :=
  { version := some "0.4", compressor := some (Compressor.structured none) }

/-! ## Witnesses and counterexamples -/

/-- Witness for C1 at a concrete declaration and descriptor. -/
theorem c1_version_membership_witness :
    resolveVersion plainMeta = some (JsNum.num (mkRat 2 5)) ∧
      ((∃ e ∈ (validateViewer fullViewer plainMeta).errors,
          e.capability = "ome_zarr_versions") ↔
        (fullViewer.capabilities.ome_zarr_versions = none ∨
          fullViewer.capabilities.ome_zarr_versions = some [] ∨
          ∃ l, fullViewer.capabilities.ome_zarr_versions = some l ∧ mkRat 2 5 ∉ l)) :=
  ⟨by decide, c1_version_membership fullViewer plainMeta (mkRat 2 5) (by decide)⟩

/-- Witness for C6 at a concrete declaration and the empty descriptor. -/
theorem c6_no_version_error_witness :
    resolveVersion emptyMeta = none ∧
      ∃ e ∈ (validateViewer fullViewer emptyMeta).errors,
        e.capability = "ome_zarr_versions" ∧ e.required = JsValue.str "version" ∧
          e.found = JsValue.null :=
  ⟨by decide, c6_no_version_error fullViewer emptyMeta (by decide)⟩

/-- Witness for C10 at a concrete descriptor with an empty-string
version. -/
theorem c10_empty_version_witness :
    emptyVersionMeta.version = some "" ∧
      (validateViewer fullViewer emptyVersionMeta =
          validateViewer fullViewer { emptyVersionMeta with version := none } ∧
        (truthyStr (msVersion emptyVersionMeta) = false →
          ∃ e ∈ (validateViewer fullViewer emptyVersionMeta).errors,
            e.capability = "ome_zarr_versions" ∧ e.required = JsValue.str "version" ∧
              e.found = JsValue.null)) :=
  ⟨rfl, c10_empty_version_treated_absent fullViewer emptyVersionMeta rfl⟩

/-- Counterexample to C4 as stated: a compressor field holding the empty
string is present, yet with no declared codec list the result gains no
codec warning at all (the source tests truthiness, so the rule is
skipped). -/
theorem c4_codec_rule_counterexample :
    falsyCompMeta.compressor = some (Compressor.scalar "") ∧
      bareViewer.capabilities.compression_codecs = none ∧
      (validateViewer bareViewer falsyCompMeta).warnings = [] ∧
      (validateViewer bareViewer falsyCompMeta).errors = [] := by
  decide

/-- Witness for C4 (amended) at a concrete truthy scalar compressor whose
codec is not in the declared list. -/
theorem c4_codec_rule_witness :
    scalarCompMeta.compressor = some (Compressor.scalar "lz4") ∧
      compressorTruthy (Compressor.scalar "lz4") = true ∧
      fullViewer.capabilities.compression_codecs = some ["blosc", "gzip"] ∧
      codecMember ["blosc", "gzip"] (resolveCodec (Compressor.scalar "lz4")) = false ∧
      ({ capability := "compression_codecs"
         message := "Viewer does not support compression codec: " ++
           showCodec (resolveCodec (Compressor.scalar "lz4"))
         required := codecValue (resolveCodec (Compressor.scalar "lz4"))
         found := JsValue.strList ["blosc", "gzip"] } : ValidationError) ∈
        (validateViewer fullViewer scalarCompMeta).errors :=
  ⟨rfl, by decide, rfl, by decide,
    ((c4_codec_rule fullViewer scalarCompMeta).2 (Compressor.scalar "lz4") rfl
      (by decide)).2 ["blosc", "gzip"] rfl (by decide)⟩

/-- Counterexample to C5 as stated: a structured compressor without an id
does not make the rule skip; the result gains a codec error. -/
theorem c5_structured_counterexample :
    structMeta.compressor = some (Compressor.structured none) ∧
      ((validateViewer fullViewer structMeta).errors.any
        fun e => e.capability == "compression_codecs") = true := by
  decide

/-- Witness for C5 (amended) at a concrete declaration with a declared
codec list. -/
theorem c5_structured_witness :
    structMeta.compressor = some (Compressor.structured none) ∧
      ({ capability := "compression_codecs"
         message := "Viewer does not support compression codec: " ++
           showCodec (resolveCodec (Compressor.structured none))
         required := codecValue (resolveCodec (Compressor.structured none))
         found := JsValue.strList ["blosc", "gzip"] } : ValidationError) ∈
        (validateViewer fullViewer structMeta).errors :=
  ⟨rfl, (c5_structured_without_id fullViewer structMeta rfl).2 ["blosc", "gzip"] rfl⟩

/-- Counterexample to C7 as stated: adding a hard-triggering version value
to a version-less descriptor replaces the no-version error, removing an
entry from the error list. -/
theorem c7_monotonicity_counterexample :
    hardTrigger bareViewer (Feature.versionF "0.5") emptyMeta ∧
      ∃ e ∈ (validateViewer bareViewer emptyMeta).errors,
        e ∉ (validateViewer bareViewer
          (addFeature (Feature.versionF "0.5") emptyMeta)).errors := by
  refine ⟨⟨by decide, by decide, by decide⟩, by decide⟩

/-- Witness for C7 (amended) at a concrete plate addition. -/
theorem c7_monotonicity_witness :
    hardTrigger bareViewer Feature.plateF plainMeta ∧
      ((validateViewer bareViewer plainMeta).errors.length ≤
          (validateViewer bareViewer (addFeature Feature.plateF plainMeta)).errors.length ∧
        ((validateViewer bareViewer (addFeature Feature.plateF plainMeta)).compatible = true →
          (validateViewer bareViewer plainMeta).compatible = true) ∧
        ((∀ s, Feature.plateF ≠ Feature.versionF s) →
          List.Sublist (validateViewer bareViewer plainMeta).errors
            (validateViewer bareViewer (addFeature Feature.plateF plainMeta)).errors)) :=
  ⟨⟨rfl, rfl⟩, c7_monotonicity bareViewer Feature.plateF plainMeta ⟨rfl, rfl⟩⟩
